import Mathlib

/-!
Verification of the IREE lowering pattern libraries:
`iree/compiler/Dialect/VM/Conversion/StandardToVM/ConvertStandardToVM.cpp`
(standard dialect to VM dialect patterns) and
`iree/compiler/Conversion/LinalgToLLVMGPU/ConvertToLLVM.cpp`
(HAL interface to LLVM/NVVM/ROCDL patterns).

Each pattern's `matchAndRewrite` is embedded as a Lean function from the
matched operation (with its already-converted operands) to
`Option` of the replacement: `none` models `return failure()`
(the pattern declines) and `some` models a successful rewrite carrying
the created replacement operation.
-/

namespace IREELower

/-- Shallow model of the MLIR types these patterns inspect: signless
integers `int w`, a 32-bit float element type, LLVM pointer types
(element type and address space, as built by `LLVMPointerType::get`),
and an opaque constructor covering every other type. -/
inductive MType where
  | int (width : Nat)
  | float32
  | llvmPtr (elem : MType) (addressSpace : Nat)
  | otherType (id : Nat)
deriving DecidableEq

/-- Model of `Type::isSignlessInteger()`: true exactly for the signless
integer constructor. -/
def MType.isSignlessInteger : MType → Bool
  | .int _ => true
  | _ => false

/-- Model of `Type::getIntOrFloatBitWidth()`; the source only calls it
after `isSignlessInteger` succeeds, so the width of other constructors
is irrelevant (given as 0). -/
def MType.intOrFloatBitWidth : MType → Nat
  | .int w => w
  | .float32 => 32
  | _ => 0

/-- Model of an MLIR attribute: integer attributes carry their type's
bit width and the signed value returned by `IntegerAttr::getInt()`
(APInt plus sign extension is represented directly by that signed
value), string attributes, unit attributes, and an opaque constructor
for every other attribute kind. -/
inductive Attr where
  | intAttr (width : Nat) (value : Int)
  | strAttr (value : String)
  | unitAttr
  | otherAttr (id : Nat)
deriving DecidableEq

/-- Model of an SSA value as seen by the patterns: its type, and
`some n` when the value is defined by an integer constant op (so that
`matchPattern(v, m_ConstantInt(&amount))` succeeds, `n` being
`amount.getZExtValue()`), `none` otherwise. -/
structure Value where
  vtype : MType
  constInt : Option Nat
deriving DecidableEq

/-- Region handle: the patterns transfer region bodies wholesale
(`takeBody` / `inlineRegionBefore`), never rebuilding their contents,
so a region is modelled as an opaque handle that moves to the new
parent unchanged. -/
abbrev Region := Nat

/-- Attribute dictionary of an operation, in order. -/
abbrev AttrDict := List (String × Attr)

/-- Model of `Operation::getAttr(name)`: first binding for the name. -/
def getAttr : AttrDict → String → Option Attr
  | [], _ => none
  | (n, a) :: rest, attrName =>
      if n = attrName then some a else getAttr rest attrName

/-! ### StandardToVM: operations and replacement forms -/

/-- Integer comparison predicates of the standard dialect `CmpIOp`. -/
inductive CmpIPredicate where
  | eq | ne | slt | sle | sgt | sge | ult | ule | ugt | uge
deriving DecidableEq

/-- Replacement operations created by the StandardToVM patterns.
Every comparison is created with the fixed i32 return type
(`rewriter.getIntegerType(32)` in the source). -/
inductive VMOp where
  | constI32Zero
  | constI32 (value : Int)
  | cmpEQI32 (lhs rhs : Value)
  | cmpNEI32 (lhs rhs : Value)
  | cmpLTI32S (lhs rhs : Value)
  | cmpLTI32U (lhs rhs : Value)
  | cmpLTEI32S (lhs rhs : Value)
  | cmpLTEI32U (lhs rhs : Value)
  | cmpGTI32S (lhs rhs : Value)
  | cmpGTI32U (lhs rhs : Value)
  | cmpGTEI32S (lhs rhs : Value)
  | cmpGTEI32U (lhs rhs : Value)
  | shlI32 (lhs : Value) (amount : Nat)
  | selectI32 (condition trueValue falseValue : Value)
  | callOp (callee : String) (resultTypes : List MType) (operands : List Value)
deriving DecidableEq

/-- A `std.constant` operation: its value attribute. -/
structure ConstantOp where
  value : Attr
deriving DecidableEq

/-- Embedding of `ConstantOpConversion::matchAndRewrite`: declines
unless the value is an `IntegerAttr` of bit width 1 or 32; rewrites a
zero value to `vm.const.i32.zero` and any other value to
`vm.const.i32` carrying `getInt()`. -/
def ConstantOpConversion (srcOp : ConstantOp) : Option VMOp :=
  match srcOp.value with
  | Attr.intAttr numBits intValue =>
      if numBits ≠ 1 ∧ numBits ≠ 32 then none
      else if intValue = 0 then some VMOp.constI32Zero
      else some (VMOp.constI32 intValue)
  | _ => none

/-- A `std.cmpi` operation: predicate and converted operands. -/
structure CmpIOp where
  predicate : CmpIPredicate
  lhs : Value
  rhs : Value
deriving DecidableEq

/-- Embedding of `CmpIOpConversion::matchAndRewrite`: total dispatch on
the ten predicates to the matching VM comparison op. -/
def CmpIOpConversion (srcOp : CmpIOp) : VMOp :=
  match srcOp.predicate with
  | .eq => VMOp.cmpEQI32 srcOp.lhs srcOp.rhs
  | .ne => VMOp.cmpNEI32 srcOp.lhs srcOp.rhs
  | .slt => VMOp.cmpLTI32S srcOp.lhs srcOp.rhs
  | .sle => VMOp.cmpLTEI32S srcOp.lhs srcOp.rhs
  | .sgt => VMOp.cmpGTI32S srcOp.lhs srcOp.rhs
  | .sge => VMOp.cmpGTEI32S srcOp.lhs srcOp.rhs
  | .ult => VMOp.cmpLTI32U srcOp.lhs srcOp.rhs
  | .ule => VMOp.cmpLTEI32U srcOp.lhs srcOp.rhs
  | .ugt => VMOp.cmpGTI32U srcOp.lhs srcOp.rhs
  | .uge => VMOp.cmpGTEI32U srcOp.lhs srcOp.rhs

/-- Sign mode of a comparison predicate: `some true` signed,
`some false` unsigned, `none` sign-agnostic (eq/ne). -/
def predicateSignMode : CmpIPredicate → Option Bool
  | .eq => none
  | .ne => none
  | .slt => some true
  | .sle => some true
  | .sgt => some true
  | .sge => some true
  | .ult => some false
  | .ule => some false
  | .ugt => some false
  | .uge => some false

/-- Sign mode of a VM comparison instruction (`none` for the
sign-agnostic eq/ne instructions and for non-comparison ops). -/
def vmCmpSignMode : VMOp → Option Bool
  | .cmpLTI32S _ _ => some true
  | .cmpLTEI32S _ _ => some true
  | .cmpGTI32S _ _ => some true
  | .cmpGTEI32S _ _ => some true
  | .cmpLTI32U _ _ => some false
  | .cmpLTEI32U _ _ => some false
  | .cmpGTI32U _ _ => some false
  | .cmpGTEI32U _ _ => some false
  | _ => none

/-- A `std.shift_left` operation: its result type and converted
operands. -/
structure ShiftLeftOp where
  resultType : MType
  lhs : Value
  rhs : Value
deriving DecidableEq

/-- Embedding of `ShiftArithmeticOpConversion::matchAndRewrite`
(template parameter `kBits`, registered only at 32 for
`ShiftLeftOp -> vm.shl.i32`): declines unless the result type is a
signless integer of width exactly `kBits`, the (converted) rhs operand
is an integer constant, and its zero-extended value is at most `kBits`;
on success the amount is carried verbatim as an i8 attribute. -/
def ShiftArithmeticOpConversion (kBits : Nat) (srcOp : ShiftLeftOp) : Option VMOp :=
  if srcOp.resultType.isSignlessInteger = false ∨
      srcOp.resultType.intOrFloatBitWidth ≠ kBits then none
  else
    match srcOp.rhs.constInt with
    | none => none
    | some amountRaw =>
        if amountRaw > kBits then none
        else some (VMOp.shlI32 srcOp.lhs amountRaw)

/-- A `std.select` operation: converted condition, true and false
operands. -/
structure SelectOp where
  condition : Value
  trueValue : Value
  falseValue : Value
deriving DecidableEq

/-- Embedding of `SelectI32OpConversion::matchAndRewrite`: declines
unless the converted true operand has type i32 (`IntegerType::get(32)`,
signless); otherwise creates `vm.select.i32` with operands in
condition, true, false order. -/
def SelectI32OpConversion (srcOp : SelectOp) : Option VMOp :=
  if srcOp.trueValue.vtype ≠ MType.int 32 then none
  else some (VMOp.selectI32 srcOp.condition srcOp.trueValue srcOp.falseValue)

/-- Elementwise type conversion with early failure, mirroring the
result-type loop of `CallOpConversion::matchAndRewrite` (and the
atomic-failure contract of the type converter's `convertTypes`): the
whole call fails as soon as one element fails. -/
def convertTypeList (convertType : MType → Option MType) : List MType → Option (List MType)
  | [] => some []
  | t :: rest =>
      match convertType t with
      | none => none
      | some t2 =>
          match convertTypeList convertType rest with
          | none => none
          | some rest2 => some (t2 :: rest2)

/-- A `std.call` operation: callee symbol, declared result types, and
converted operands. -/
structure CallOp where
  callee : String
  resultTypes : List MType
  operands : List Value
deriving DecidableEq

/-- Embedding of `CallOpConversion::matchAndRewrite`. The
`VMTypeConverter` itself lives outside this tree, so it is abstracted
as the `convertType` parameter (`convertType t = none` models an
unconvertible type): each declared result type is converted, failure of
any one fails the pattern, and on success the call is rewritten to
`vm.call` with the same callee and the adaptor operands in order. -/
def CallOpConversion (convertType : MType → Option MType) (srcOp : CallOp) : Option VMOp :=
  match convertTypeList convertType srcOp.resultTypes with
  | none => none
  | some resultTypes => some (VMOp.callOp srcOp.callee resultTypes srcOp.operands)

/-! ### StandardToVM: module and function conversion -/

/-- Kind of `getParentOp()` of a module: absent, a module, or some
other operation. -/
inductive ParentKind where
  | noParent
  | moduleParent
  | otherParent
deriving DecidableEq

/-- A builtin `module` operation: optional symbol name, parent kind,
and its body region. -/
structure ModuleOp where
  name : Option String
  parent : ParentKind
  body : Region
deriving DecidableEq

/-- A `vm.module` operation: name and body region. -/
structure VMModuleOp where
  name : String
  body : Region
deriving DecidableEq

/-- Fallback name used when the source module is unnamed. -/
def defaultModuleName : String := "module"

/-- Embedding of `ModuleOpConversion::matchAndRewrite`: declines for
the top-level module (no parent, or parent not a module); otherwise
creates a `vm.module` named after the source module (or "module") and
takes the source body region. -/
def ModuleOpConversion (srcOp : ModuleOp) : Option VMModuleOp :=
  if srcOp.parent ≠ ParentKind.moduleParent then none
  else some ⟨srcOp.name.getD defaultModuleName, srcOp.body⟩

/-- Name of the reflection-metadata attribute. -/
def reflectionAttrName : String := "iree.reflection"

/-- Name of the symbol-visibility attribute. -/
def symVisibilityAttrName : String := "sym_visibility"

/-- Name of the export-marker attribute. -/
def exportAttrName : String := "iree.module.export"

/-- Embedding of the `kRetainedAttributes` whitelist. -/
def kRetainedAttributes : List String := [reflectionAttrName, symVisibilityAttrName]

/-- The attribute-retention loop of `FuncOpConversion`: for each name
in the whitelist, copy the source attribute when present. -/
def retainAttrs (attrs : AttrDict) : AttrDict :=
  kRetainedAttributes.filterMap
    (fun attrName => (getAttr attrs attrName).map (fun a => (attrName, a)))

/-- A `std.func` operation as `FuncOpConversion` sees it: name,
argument and result types, attribute dictionary (the dictionary holds
the discardable attributes; symbol name and function type are intrinsic
fields), and body region. -/
structure FuncOp where
  name : String
  inputs : List MType
  results : List MType
  attrs : AttrDict
  body : Region
deriving DecidableEq

/-- A `vm.func` operation produced by `FuncOpConversion`. -/
structure VMFuncOp where
  name : String
  inputs : List MType
  results : List MType
  attrs : AttrDict
  body : Region
deriving DecidableEq

/-- A `vm.export` declaration: the referenced function and the exported
name. -/
structure ExportOp where
  funcName : String
  exportName : String
deriving DecidableEq

/-- Embedding of `FuncOpConversion::matchAndRewrite`. The
`VMTypeConverter` (outside this tree) is abstracted as `convertType`;
`convertSignatureArg` and `convertTypes` apply it elementwise, each
failing the pattern on the first unconvertible type. On success: a new
`vm.func` with converted signature, the body region transferred, only
whitelisted attributes retained, and a companion `vm.export` exactly
when the source carries the export marker, exporting under the marker's
string value when it is a string attribute and under the function's own
name otherwise. -/
def FuncOpConversion (convertType : MType → Option MType) (srcOp : FuncOp) :
    Option (VMFuncOp × Option ExportOp) :=
  match convertTypeList convertType srcOp.inputs with
  | none => none
  | some convertedInputs =>
      match convertTypeList convertType srcOp.results with
      | none => none
      | some convertedResults =>
          let newFuncOp : VMFuncOp :=
            ⟨srcOp.name, convertedInputs, convertedResults,
              retainAttrs srcOp.attrs, srcOp.body⟩
          let exportDecl : Option ExportOp :=
            match getAttr srcOp.attrs exportAttrName with
            | none => none
            | some (Attr.strAttr s) => some ⟨newFuncOp.name, s⟩
            | some _ => some ⟨newFuncOp.name, newFuncOp.name⟩
          some (newFuncOp, exportDecl)

/-! ### LinalgToLLVMGPU: function flattening and binding lowering -/

/-- A `hal.interface.binding` declaration: its symbol name and the
numeric value of its `binding` index attribute
(`interfaceBindingOp.binding().getZExtValue()`). -/
structure InterfaceBindingDecl where
  symName : String
  bindingIndex : Nat
deriving DecidableEq

/-- A `hal.interface.binding.subspan` operation: the symbol it
references through its `binding` attribute, and the components of its
memref result type (element type, memory space, whether the shape is
static). -/
structure SubspanOp where
  binding : String
  elemType : MType
  memorySpace : Nat
  staticShape : Bool
deriving DecidableEq

/-- A `std.func` as `ConvertFunc` sees it: visibility, the input and
result counts of its type (asserted to be 0), and the
`hal.interface.binding.subspan` ops inside its body in the order
`funcOp.walk` encounters them (pre-order). -/
structure HALFuncOp where
  name : String
  isPublic : Bool
  numInputs : Nat
  numResults : Nat
  body : List SubspanOp
deriving DecidableEq

/-- The `llvm.func` produced by `ConvertFunc`: name, parameter types,
and the transferred body. -/
structure LLVMFuncOp where
  name : String
  params : List MType
  body : List SubspanOp
deriving DecidableEq

/-- Embedding of `ConvertFunc::matchAndRewrite`: declines for
non-public functions; otherwise walks the body and pushes, for every
subspan op encountered, one `LLVMPointerType::get(elementType,
memorySpace)` input, builds the `llvm.func` with those parameters (void
result), and transfers the body region. -/
def ConvertFunc (funcOp : HALFuncOp) : Option LLVMFuncOp :=
  if funcOp.isPublic = false then none
  else
    some ⟨funcOp.name,
      funcOp.body.map (fun s => MType.llvmPtr s.elemType s.memorySpace),
      funcOp.body⟩

/-- Model of `SymbolTable::lookupNearestSymbolFrom` restricted to
`hal.interface.binding` declarations: first declaration whose symbol
matches. -/
def lookupSymbol : List InterfaceBindingDecl → String → Option InterfaceBindingDecl
  | [], _ => none
  | d :: rest, symName =>
      if d.symName = symName then some d else lookupSymbol rest symName

/-- The replacement built by `ConvertIREEBindingOp` for a
statically-shaped subspan: a memref descriptor whose base pointer is
the enclosing `llvm.func`'s argument at this index. -/
structure MemRefDescriptor where
  baseArgIndex : Nat
deriving DecidableEq

/-- Embedding of `ConvertIREEBindingOp::matchAndRewrite`: bails until
nested under an `llvm.func`; looks up the referenced
`hal.interface.binding` declaration (a missing symbol is a
structural-precondition violation in the source — the null cast —
modelled as decline) and, for a statically-shaped memref, builds the
descriptor from the function argument indexed by the declaration's
numeric `binding` attribute. The dynamically-shaped case is the
source's fatal unimplemented path (`assert(0)`). -/
def ConvertIREEBindingOp (symtab : List InterfaceBindingDecl)
    (parentLLVMFunc : Option LLVMFuncOp) (op : SubspanOp) : Option MemRefDescriptor :=
  match parentLLVMFunc with
  | none => none
  | some _ =>
      match lookupSymbol symtab op.binding with
      | none => none
      | some decl =>
          if op.staticShape then some ⟨decl.bindingIndex⟩
          else none

/-! ### LinalgToLLVMGPU: workgroup intrinsic lowering -/

/-- Which HAL workgroup query an operation is. -/
inductive WorkgroupOpKind where
  | wgId | wgCount | wgSize
deriving DecidableEq

/-- The NVVM and ROCDL intrinsic read operations the patterns create. -/
inductive GPUIntrinsic where
  | nvvmBlockIdX | nvvmBlockIdY | nvvmBlockIdZ
  | nvvmGridDimX | nvvmGridDimY | nvvmGridDimZ
  | nvvmBlockDimX | nvvmBlockDimY | nvvmBlockDimZ
  | rocdlBlockIdX | rocdlBlockIdY | rocdlBlockIdZ
  | rocdlGridDimX | rocdlGridDimY | rocdlGridDimZ
  | rocdlBlockDimX | rocdlBlockDimY | rocdlBlockDimZ
deriving DecidableEq

/-- A workgroup query operation: its kind and the signed value of its
`dimension` attribute (`op.dimension().getSExtValue()`). -/
structure WorkgroupOp where
  kind : WorkgroupOpKind
  dimension : Int
deriving DecidableEq

/-- The lowered form of a workgroup query: a 32-bit intrinsic read
followed by `llvm.sext` to a 64-bit integer. -/
structure LoweredWorkgroupQuery where
  intrinsic : GPUIntrinsic
  intrinsicWidth : Nat
  sextWidth : Nat
deriving DecidableEq

/-- Model of `static_cast<int32_t>` applied to a signed 64-bit value:
two's-complement truncation to 32 bits. -/
def int32cast (v : Int) : Int := (v + 2147483648) % 4294967296 - 2147483648

/-- Embedding of
`HALInterfaceWorkgroupOpsConverter<InterfaceOpTy, XOp, YOp, ZOp>::matchAndRewrite`:
computes `index` as the 32-bit cast of the dimension attribute's signed
value, switches on 0/1/2 to create the corresponding intrinsic at i32,
declines on any other index, and sign-extends the read to i64. -/
def HALInterfaceWorkgroupOpsConverter (xOp yOp zOp : GPUIntrinsic)
    (op : WorkgroupOp) : Option LoweredWorkgroupQuery :=
  let index := int32cast op.dimension
  if index = 0 then some ⟨xOp, 32, 64⟩
  else if index = 1 then some ⟨yOp, 32, 64⟩
  else if index = 2 then some ⟨zOp, 32, 64⟩
  else none

/-- The X/Y/Z intrinsic triple `populateLLVMConversionPatterns`
instantiates for each workgroup query kind, by backend flag
(`useROCM`). -/
def workgroupIntrinsicTable (useROCM : Bool) (kind : WorkgroupOpKind) :
    GPUIntrinsic × GPUIntrinsic × GPUIntrinsic :=
  match useROCM, kind with
  | true, .wgId => (.rocdlBlockIdX, .rocdlBlockIdY, .rocdlBlockIdZ)
  | true, .wgCount => (.rocdlGridDimX, .rocdlGridDimY, .rocdlGridDimZ)
  | true, .wgSize => (.rocdlBlockDimX, .rocdlBlockDimY, .rocdlBlockDimZ)
  | false, .wgId => (.nvvmBlockIdX, .nvvmBlockIdY, .nvvmBlockIdZ)
  | false, .wgCount => (.nvvmGridDimX, .nvvmGridDimY, .nvvmGridDimZ)
  | false, .wgSize => (.nvvmBlockDimX, .nvvmBlockDimY, .nvvmBlockDimZ)

/-- Legalization of one workgroup query:
`populateLLVMConversionPatterns` registers exactly one pattern per
workgroup query kind (one `HALInterfaceWorkgroupOpsConverter`
instantiation per kind per backend), so the driver's outcome for such
an op is this single pattern's outcome; `none` is terminal legalization
failure. -/
def legalizeWorkgroupOp (useROCM : Bool) (op : WorkgroupOp) :
    Option LoweredWorkgroupQuery :=
  HALInterfaceWorkgroupOpsConverter
    (workgroupIntrinsicTable useROCM op.kind).1
    (workgroupIntrinsicTable useROCM op.kind).2.1
    (workgroupIntrinsicTable useROCM op.kind).2.2 op

/-! ### Concrete instances used by the witness and counterexample
theorems -/

/-- Identity type conversion, a concrete legal `convertType`. -/
def idConvert : MType → Option MType := fun t => some t

/-- Sample shift with result type i32 and a constant amount 5. -/
def sampleShiftOp : ShiftLeftOp :=
  ⟨MType.int 32, ⟨MType.int 32, none⟩, ⟨MType.int 32, some 5⟩⟩

/-- Sample 32-bit zero constant. -/
def sampleZeroConst : ConstantOp := ⟨Attr.intAttr 32 0⟩

/-- Sample select whose converted true operand has type i32. -/
def sampleSelectOp : SelectOp :=
  ⟨⟨MType.int 1, none⟩, ⟨MType.int 32, none⟩, ⟨MType.int 32, none⟩⟩

/-- Sample callee name. -/
def sampleCalleeName : String := "f"

/-- Sample call with one i32 result and no operands. -/
def sampleCallOp : CallOp := ⟨sampleCalleeName, [MType.int 32], []⟩

/-- Sample non-whitelisted attribute name. -/
def fooAttrName : String := "foo"

/-- Sample function carrying a reflection attribute and a
non-whitelisted attribute. -/
def sampleFuncOp : FuncOp :=
  ⟨sampleCalleeName, [], [],
    [(reflectionAttrName, Attr.unitAttr), (fooAttrName, Attr.otherAttr 0)], 0⟩

/-- The conversion result for `sampleFuncOp`. -/
def sampleVMFuncOp : VMFuncOp :=
  ⟨sampleCalleeName, [], [], [(reflectionAttrName, Attr.unitAttr)], 0⟩

/-- Sample function carrying a unit export marker. -/
def sampleExportFuncOp : FuncOp :=
  ⟨sampleCalleeName, [], [], [(exportAttrName, Attr.unitAttr)], 0⟩

/-- The conversion result for `sampleExportFuncOp`. -/
def sampleExportVMFuncOp : VMFuncOp := ⟨sampleCalleeName, [], [], [], 0⟩

/-- Sample nested unnamed module. -/
def sampleNestedModule : ModuleOp := ⟨none, ParentKind.moduleParent, 7⟩

/-- Symbol name of the first sample binding. -/
def bindingSymB : String := "b0"

/-- Symbol name of the second sample binding. -/
def bindingSymC : String := "c0"

/-- Sample kernel name. -/
def kernelName : String := "kernel"

/-- Second sample kernel name. -/
def kernel2Name : String := "kernel2"

/-- A binding declaration whose numeric `binding` index is 1. -/
def ceBindingDecl : InterfaceBindingDecl := ⟨bindingSymB, 1⟩

/-- A statically-shaped subspan referencing `bindingSymB`. -/
def ceSubspanB : SubspanOp := ⟨bindingSymB, MType.float32, 0, true⟩

/-- Public entry function whose body references `bindingSymB` once. -/
def ceFunc1 : HALFuncOp := ⟨kernelName, true, 0, 0, [ceSubspanB]⟩

/-- The lowering of `ceFunc1`: one pointer parameter. -/
def ceLowered1 : LLVMFuncOp :=
  ⟨kernelName, [MType.llvmPtr MType.float32 0], [ceSubspanB]⟩

/-- A binding declaration whose numeric `binding` index is 0. -/
def ceBindingDeclC : InterfaceBindingDecl := ⟨bindingSymC, 0⟩

/-- A statically-shaped subspan referencing `bindingSymC`. -/
def ceSubspanC : SubspanOp := ⟨bindingSymC, MType.float32, 0, true⟩

/-- Public entry function referencing the single binding
`bindingSymC` twice. -/
def ceFunc2 : HALFuncOp := ⟨kernel2Name, true, 0, 0, [ceSubspanC, ceSubspanC]⟩

/-- The lowering of `ceFunc2`: two pointer parameters for one distinct
binding. -/
def ceLowered2 : LLVMFuncOp :=
  ⟨kernel2Name,
    [MType.llvmPtr MType.float32 0, MType.llvmPtr MType.float32 0],
    [ceSubspanC, ceSubspanC]⟩

/-! ### Theorems -/

/-- C2: for each of the six relational predicates equal, not-equal,
signed less-than, unsigned less-than, signed less-or-equal and unsigned
less-or-equal, `CmpIOpConversion` rewrites the comparison to the VM
comparison instruction with exactly matching direction and signedness,
and (final clause) no predicate is ever lowered to a VM instruction of
the wrong sign mode. -/
theorem cmpi_predicate_fidelity (lhs rhs : Value) :
    CmpIOpConversion ⟨CmpIPredicate.eq, lhs, rhs⟩ = VMOp.cmpEQI32 lhs rhs ∧
    CmpIOpConversion ⟨CmpIPredicate.ne, lhs, rhs⟩ = VMOp.cmpNEI32 lhs rhs ∧
    CmpIOpConversion ⟨CmpIPredicate.slt, lhs, rhs⟩ = VMOp.cmpLTI32S lhs rhs ∧
    CmpIOpConversion ⟨CmpIPredicate.ult, lhs, rhs⟩ = VMOp.cmpLTI32U lhs rhs ∧
    CmpIOpConversion ⟨CmpIPredicate.sle, lhs, rhs⟩ = VMOp.cmpLTEI32S lhs rhs ∧
    CmpIOpConversion ⟨CmpIPredicate.ule, lhs, rhs⟩ = VMOp.cmpLTEI32U lhs rhs ∧
    ∀ p : CmpIPredicate,
      vmCmpSignMode (CmpIOpConversion ⟨p, lhs, rhs⟩) = predicateSignMode p := by
  refine ⟨rfl, rfl, rfl, rfl, rfl, rfl, fun p => ?_⟩
  cases p <;> rfl

/-- C3: the registered shift lowering (kBits = 32) succeeds exactly
when the result type is signless i32 and the converted shift amount
operand is a compile-time constant of value at most 32; on success the
amount is carried verbatim (no truncation or wrapping). -/
theorem shift_conversion_bounds (srcOp : ShiftLeftOp) :
    ((ShiftArithmeticOpConversion 32 srcOp).isSome = true ↔
      srcOp.resultType = MType.int 32 ∧
        ∃ amount, srcOp.rhs.constInt = some amount ∧ amount ≤ 32) ∧
    (∀ amount, srcOp.rhs.constInt = some amount → amount ≤ 32 →
      srcOp.resultType = MType.int 32 →
      ShiftArithmeticOpConversion 32 srcOp =
        some (VMOp.shlI32 srcOp.lhs amount)) := by
  constructor
  · cases hrt : srcOp.resultType with
    | int w =>
        by_cases hw : w = 32
        · subst hw
          cases hci : srcOp.rhs.constInt with
          | none =>
              simp [ShiftArithmeticOpConversion, MType.isSignlessInteger,
                MType.intOrFloatBitWidth, hrt, hci]
          | some a =>
              by_cases ha : a ≤ 32
              · simp [ShiftArithmeticOpConversion, MType.isSignlessInteger,
                  MType.intOrFloatBitWidth, hrt, hci, Nat.not_lt.mpr ha, ha]
              · simp [ShiftArithmeticOpConversion, MType.isSignlessInteger,
                  MType.intOrFloatBitWidth, hrt, hci, Nat.lt_of_not_le ha, ha]
        · simp [ShiftArithmeticOpConversion, MType.isSignlessInteger,
            MType.intOrFloatBitWidth, hrt, hw]
    | float32 =>
        simp [ShiftArithmeticOpConversion, MType.isSignlessInteger, hrt]
    | llvmPtr e a =>
        simp [ShiftArithmeticOpConversion, MType.isSignlessInteger, hrt]
    | otherType i =>
        simp [ShiftArithmeticOpConversion, MType.isSignlessInteger, hrt]
  · intro amount hci hle hrt
    simp [ShiftArithmeticOpConversion, MType.isSignlessInteger,
      MType.intOrFloatBitWidth, hrt, hci, Nat.not_lt.mpr hle]

/-- C3 witness: an i32 shift by the constant 5 is lowered to
`vm.shl.i32` with amount 5. -/
theorem shift_conversion_bounds_witness :
    ShiftArithmeticOpConversion 32 sampleShiftOp =
      some (VMOp.shlI32 ⟨MType.int 32, none⟩ 5) :=
  (shift_conversion_bounds sampleShiftOp).2 5 rfl (by decide) rfl

/-- C4: `ConstantOpConversion` succeeds exactly when the value is an
integer attribute of bit width 1 or 32; a zero value lowers to
`vm.const.i32.zero` and any nonzero value to `vm.const.i32` carrying
exactly that value. -/
theorem constant_conversion_spec (srcOp : ConstantOp) :
    ((ConstantOpConversion srcOp).isSome = true ↔
      ∃ w v, srcOp.value = Attr.intAttr w v ∧ (w = 1 ∨ w = 32)) ∧
    (∀ w v, srcOp.value = Attr.intAttr w v → (w = 1 ∨ w = 32) →
      ConstantOpConversion srcOp =
        some (if v = 0 then VMOp.constI32Zero else VMOp.constI32 v)) := by
  constructor
  · cases ha : srcOp.value with
    | intAttr w v =>
        by_cases hw : w = 1 ∨ w = 32
        · have hcond : ¬(w ≠ 1 ∧ w ≠ 32) := by tauto
          by_cases hv : v = 0 <;>
            simp [ConstantOpConversion, ha, hcond, hv, hw]
        · have hcond : w ≠ 1 ∧ w ≠ 32 := by tauto
          simp [ConstantOpConversion, ha, hcond, hw]
    | strAttr s => simp [ConstantOpConversion, ha]
    | unitAttr => simp [ConstantOpConversion, ha]
    | otherAttr i => simp [ConstantOpConversion, ha]
  · intro w v ha hw
    have hcond : ¬(w ≠ 1 ∧ w ≠ 32) := by tauto
    by_cases hv : v = 0 <;> simp [ConstantOpConversion, ha, hcond, hv]

/-- C4 witness: the 32-bit constant 0 lowers to the dedicated zero
instruction. -/
theorem constant_conversion_spec_witness :
    ConstantOpConversion sampleZeroConst = some VMOp.constI32Zero := by
  have h := (constant_conversion_spec sampleZeroConst).2 32 0 rfl (Or.inr rfl)
  simpa using h

/-- C10: `SelectI32OpConversion` succeeds exactly when the converted
true operand has type i32, producing `vm.select.i32` with condition,
true, false operands in that order. -/
theorem select_conversion_spec (srcOp : SelectOp) :
    ((SelectI32OpConversion srcOp).isSome = true ↔
      srcOp.trueValue.vtype = MType.int 32) ∧
    (srcOp.trueValue.vtype = MType.int 32 →
      SelectI32OpConversion srcOp =
        some (VMOp.selectI32 srcOp.condition srcOp.trueValue srcOp.falseValue)) := by
  constructor
  · by_cases h : srcOp.trueValue.vtype = MType.int 32 <;>
      simp [SelectI32OpConversion, h]
  · intro h
    simp [SelectI32OpConversion, h]

/-- C10 witness: a select whose true operand is i32 lowers to
`vm.select.i32`. -/
theorem select_conversion_spec_witness :
    SelectI32OpConversion sampleSelectOp =
      some (VMOp.selectI32 ⟨MType.int 1, none⟩ ⟨MType.int 32, none⟩
        ⟨MType.int 32, none⟩) :=
  (select_conversion_spec sampleSelectOp).2 rfl

/-- Helper: elementwise conversion fails exactly when some element is
unconvertible. -/
theorem convertTypeList_eq_none_iff (f : MType → Option MType) (l : List MType) :
    convertTypeList f l = none ↔ ∃ t ∈ l, f t = none := by
  induction l with
  | nil => simp [convertTypeList]
  | cons t rest ih =>
      cases hft : f t with
      | none =>
          simp only [convertTypeList, hft, List.mem_cons]
          exact ⟨fun _ => ⟨t, Or.inl rfl, hft⟩, fun _ => trivial⟩
      | some t2 =>
          cases hr : convertTypeList f rest with
          | none =>
              simp only [convertTypeList, hft, hr, List.mem_cons]
              obtain ⟨u, hu, hfu⟩ := ih.mp hr
              exact ⟨fun _ => ⟨u, Or.inr hu, hfu⟩, fun _ => trivial⟩
          | some r2 =>
              simp only [convertTypeList, hft, hr, List.mem_cons]
              constructor
              · intro hcontra
                exact absurd hcontra (by simp)
              · rintro ⟨u, hu | hu, hfu⟩
                · rw [hu] at hfu
                  exact absurd hfu (by simp [hft])
                · exact absurd (ih.mpr ⟨u, hu, hfu⟩) (by simp [hr])

/-- C9: `CallOpConversion` fails exactly when some declared result type
is unconvertible; when all result types convert it rewrites to
`vm.call` with the same callee and the operands in identical order. -/
theorem call_conversion_spec (convertType : MType → Option MType) (srcOp : CallOp) :
    (CallOpConversion convertType srcOp = none ↔
      ∃ t ∈ srcOp.resultTypes, convertType t = none) ∧
    (∀ ts, convertTypeList convertType srcOp.resultTypes = some ts →
      CallOpConversion convertType srcOp =
        some (VMOp.callOp srcOp.callee ts srcOp.operands)) := by
  constructor
  · rw [← convertTypeList_eq_none_iff]
    cases h : convertTypeList convertType srcOp.resultTypes <;>
      simp [CallOpConversion, h]
  · intro ts hts
    simp [CallOpConversion, hts]

/-- C9 witness: under the identity converter a call with one i32 result
lowers to `vm.call` with the same callee and operand list. -/
theorem call_conversion_spec_witness :
    CallOpConversion idConvert sampleCallOp =
      some (VMOp.callOp sampleCalleeName [MType.int 32] []) :=
  (call_conversion_spec idConvert sampleCallOp).2 [MType.int 32] rfl

/-- Helper: looking up any name in the retained-attribute dictionary
gives the source attribute for whitelisted names and nothing
otherwise. -/
theorem getAttr_retainAttrs (attrs : AttrDict) (attrName : String) :
    getAttr (retainAttrs attrs) attrName =
      if attrName ∈ kRetainedAttributes then getAttr attrs attrName else none := by
  cases h1 : getAttr attrs reflectionAttrName <;>
  cases h2 : getAttr attrs symVisibilityAttrName <;>
  by_cases e1 : reflectionAttrName = attrName <;>
  by_cases e2 : symVisibilityAttrName = attrName <;>
  simp_all [retainAttrs, kRetainedAttributes, getAttr, List.filterMap,
    reflectionAttrName, symVisibilityAttrName] <;>
  · refine (if_neg ?_).symm
    rintro (h | h)
    · exact e1 h.symm
    · exact e2 h.symm

/-- C6: after a successful `FuncOpConversion`, the reflection and
visibility attributes are present on the result exactly when present
(with the same value) on the source, and every attribute outside the
whitelist is absent on the result. -/
theorem funcop_attribute_allowlist (convertType : MType → Option MType)
    (srcOp : FuncOp) (newFuncOp : VMFuncOp) (exportDecl : Option ExportOp)
    (h : FuncOpConversion convertType srcOp = some (newFuncOp, exportDecl))
    (attrName : String) :
    getAttr newFuncOp.attrs attrName =
      if attrName ∈ kRetainedAttributes then getAttr srcOp.attrs attrName
      else none := by
  have hattrs : newFuncOp.attrs = retainAttrs srcOp.attrs := by
    unfold FuncOpConversion at h
    cases hin : convertTypeList convertType srcOp.inputs with
    | none => rw [hin] at h; exact absurd h (by simp)
    | some ci =>
        rw [hin] at h
        cases hres : convertTypeList convertType srcOp.results with
        | none => rw [hres] at h; exact absurd h (by simp)
        | some cr =>
            rw [hres] at h
            simp only [Option.some.injEq, Prod.mk.injEq] at h
            rw [← h.1]
  rw [hattrs, getAttr_retainAttrs]

/-- C6 witness: the non-whitelisted attribute of `sampleFuncOp` is
absent on its conversion result. -/
theorem funcop_attribute_allowlist_witness :
    getAttr sampleVMFuncOp.attrs fooAttrName = none := by
  have h := funcop_attribute_allowlist idConvert sampleFuncOp sampleVMFuncOp
    none (by decide) fooAttrName
  rw [if_neg (by decide)] at h
  exact h

/-- C7: after a successful `FuncOpConversion`, a companion export
declaration exists exactly when the source carries the export marker;
its exported name is the marker's string value when the marker is a
string attribute and the converted function's own name (the source
name) otherwise. -/
theorem funcop_export_decl (convertType : MType → Option MType)
    (srcOp : FuncOp) (newFuncOp : VMFuncOp) (exportDecl : Option ExportOp)
    (h : FuncOpConversion convertType srcOp = some (newFuncOp, exportDecl)) :
    newFuncOp.name = srcOp.name ∧
    (getAttr srcOp.attrs exportAttrName = none → exportDecl = none) ∧
    (∀ s, getAttr srcOp.attrs exportAttrName = some (Attr.strAttr s) →
      exportDecl = some ⟨newFuncOp.name, s⟩) ∧
    (∀ a, getAttr srcOp.attrs exportAttrName = some a →
      (∀ s, a ≠ Attr.strAttr s) →
      exportDecl = some ⟨newFuncOp.name, newFuncOp.name⟩) := by
  unfold FuncOpConversion at h
  cases hin : convertTypeList convertType srcOp.inputs with
  | none => rw [hin] at h; exact absurd h (by simp)
  | some ci =>
      rw [hin] at h
      cases hres : convertTypeList convertType srcOp.results with
      | none => rw [hres] at h; exact absurd h (by simp)
      | some cr =>
          rw [hres] at h
          simp only [Option.some.injEq, Prod.mk.injEq] at h
          obtain ⟨hfn, hex⟩ := h
          have hname : newFuncOp.name = srcOp.name := by rw [← hfn]
          refine ⟨hname, ?_, ?_, ?_⟩
          · intro hnone
            rw [← hex, hnone]
          · intro s hs
            rw [← hex, hs, hname]
          · intro a ha hns
            rw [← hex, ha, hname]
            cases a with
            | strAttr s => exact absurd rfl (hns s)
            | intAttr w v => rfl
            | unitAttr => rfl
            | otherAttr i => rfl

/-- C7 witness: a function with a unit export marker gets exactly one
export declaration carrying its own name. -/
theorem funcop_export_decl_witness :
    FuncOpConversion idConvert sampleExportFuncOp =
      some (sampleExportVMFuncOp,
        some ⟨sampleCalleeName, sampleCalleeName⟩) ∧
    sampleExportVMFuncOp.name = sampleCalleeName := by
  have hc : FuncOpConversion idConvert sampleExportFuncOp =
      some (sampleExportVMFuncOp,
        some ⟨sampleCalleeName, sampleCalleeName⟩) := by decide
  refine ⟨hc, ?_⟩
  have h := (funcop_export_decl idConvert sampleExportFuncOp
    sampleExportVMFuncOp (some ⟨sampleCalleeName, sampleCalleeName⟩) hc).1
  simpa [sampleExportFuncOp] using h

/-- C8: `ModuleOpConversion` declines exactly for a module whose parent
is absent or not itself a module; for a nested module it creates the
`vm.module` named after the source (default name "module") carrying the
transferred body region. -/
theorem moduleop_conversion_nesting (srcOp : ModuleOp) :
    (ModuleOpConversion srcOp = none ↔
      srcOp.parent ≠ ParentKind.moduleParent) ∧
    (srcOp.parent = ParentKind.moduleParent →
      ModuleOpConversion srcOp =
        some ⟨srcOp.name.getD defaultModuleName, srcOp.body⟩) := by
  constructor
  · by_cases h : srcOp.parent = ParentKind.moduleParent <;>
      simp [ModuleOpConversion, h]
  · intro h
    simp [ModuleOpConversion, h]

/-- C8 witness: a nested unnamed module is rewritten into a `vm.module`
named "module" with its body transferred. -/
theorem moduleop_conversion_nesting_witness :
    ModuleOpConversion sampleNestedModule = some ⟨defaultModuleName, 7⟩ := by
  have h := (moduleop_conversion_nesting sampleNestedModule).2 rfl
  simpa [sampleNestedModule] using h

/-- C5 counterexample: the axis value 4294967296 (2^32) is outside
the set 0, 1, 2, yet the registered workgroup-id pattern does not
return match failure: the `static_cast<int32_t>` in the source wraps
the axis to 0 and the query is lowered to the X intrinsic. -/
theorem workgroup_axis_wrap_counterexample :
    ¬((4294967296 : Int) = 0 ∨ (4294967296 : Int) = 1 ∨
      (4294967296 : Int) = 2) ∧
    legalizeWorkgroupOp false ⟨WorkgroupOpKind.wgId, 4294967296⟩ =
      some ⟨GPUIntrinsic.nvvmBlockIdX, 32, 64⟩ := by
  exact ⟨by decide, by decide⟩

/-- C5 (amended): a workgroup query with axis attribute 0, 1 or 2 is
lowered to the 32-bit intrinsic selected by axis, query kind and
backend flag, sign-extended to 64 bits; the pattern declines — which is
terminal, this being the only pattern registered for the kind — exactly
when the truncation of the axis to a signed 32-bit integer lies outside
0, 1, 2. -/
theorem workgroup_conversion_axes (useROCM : Bool) (op : WorkgroupOp) :
    (op.dimension = 0 → legalizeWorkgroupOp useROCM op =
      some ⟨(workgroupIntrinsicTable useROCM op.kind).1, 32, 64⟩) ∧
    (op.dimension = 1 → legalizeWorkgroupOp useROCM op =
      some ⟨(workgroupIntrinsicTable useROCM op.kind).2.1, 32, 64⟩) ∧
    (op.dimension = 2 → legalizeWorkgroupOp useROCM op =
      some ⟨(workgroupIntrinsicTable useROCM op.kind).2.2, 32, 64⟩) ∧
    (legalizeWorkgroupOp useROCM op = none ↔
      ¬(int32cast op.dimension = 0 ∨ int32cast op.dimension = 1 ∨
        int32cast op.dimension = 2)) := by
  refine ⟨?_, ?_, ?_, ?_⟩
  · intro h
    simp [legalizeWorkgroupOp, HALInterfaceWorkgroupOpsConverter, h, int32cast]
  · intro h
    simp [legalizeWorkgroupOp, HALInterfaceWorkgroupOpsConverter, h, int32cast]
  · intro h
    simp [legalizeWorkgroupOp, HALInterfaceWorkgroupOpsConverter, h, int32cast]
  · by_cases h0 : int32cast op.dimension = 0
    · simp [legalizeWorkgroupOp, HALInterfaceWorkgroupOpsConverter, h0]
    · by_cases h1 : int32cast op.dimension = 1
      · simp [legalizeWorkgroupOp, HALInterfaceWorkgroupOpsConverter, h0, h1]
      · by_cases h2 : int32cast op.dimension = 2
        · simp [legalizeWorkgroupOp, HALInterfaceWorkgroupOpsConverter,
            h0, h1, h2]
        · simp [legalizeWorkgroupOp, HALInterfaceWorkgroupOpsConverter,
            h0, h1, h2]

/-- C5 witness: a workgroup-id query for axis 3 fails legalization (the
spec's failure scenario), and axis 1 on the ROCDL backend lowers to the
Y block-id intrinsic sign-extended to 64 bits. -/
theorem workgroup_conversion_axes_witness :
    legalizeWorkgroupOp false ⟨WorkgroupOpKind.wgId, 3⟩ = none ∧
    legalizeWorkgroupOp true ⟨WorkgroupOpKind.wgId, 1⟩ =
      some ⟨GPUIntrinsic.rocdlBlockIdY, 32, 64⟩ := by
  constructor
  · exact (workgroup_conversion_axes false ⟨WorkgroupOpKind.wgId, 3⟩).2.2.2.mpr
      (by decide)
  · exact (workgroup_conversion_axes true ⟨WorkgroupOpKind.wgId, 1⟩).2.1 rfl

/-- C1 counterexample: `ceFunc1` contains one distinct binding
reference, to a binding declared with numeric index 1; the lowered
function has exactly one pointer parameter, yet the binding lowering
resolves the reference to argument index 1, not to the function's
single parameter (index 0). `ceFunc2` references one distinct binding
twice and the lowered function gets two parameters, not one. -/
theorem binding_lowering_counterexample :
    ConvertFunc ceFunc1 = some ceLowered1 ∧
    ceLowered1.params.length = 1 ∧
    ConvertIREEBindingOp [ceBindingDecl] (some ceLowered1) ceSubspanB =
      some ⟨1⟩ ∧
    (1 : Nat) ≠ 0 ∧
    ConvertFunc ceFunc2 = some ceLowered2 ∧
    (ceFunc2.body.map SubspanOp.binding).dedup.length = 1 ∧
    ceLowered2.params.length = 2 := by
  refine ⟨by decide, by decide, by decide, by decide, by decide, ?_, by decide⟩
  decide

/-- C1 (amended): `ConvertFunc` gives the lowered function one
pointer-typed parameter per binding reference in pre-order (element
type and memory space taken from the reference), and
`ConvertIREEBindingOp` resolves each statically-shaped reference to the
argument indexed by the referenced declaration's numeric `binding`
attribute; in particular the reference at pre-order position `i`
resolves to parameter `i` exactly when its declaration carries binding
index `i`. -/
theorem binding_lowering_amended (symtab : List InterfaceBindingDecl)
    (funcOp : HALFuncOp) (g : LLVMFuncOp)
    (_hzero : funcOp.numInputs = 0 ∧ funcOp.numResults = 0)
    (hconv : ConvertFunc funcOp = some g) :
    g.params = funcOp.body.map (fun s => MType.llvmPtr s.elemType s.memorySpace) ∧
    (∀ s ∈ funcOp.body, ∀ decl, lookupSymbol symtab s.binding = some decl →
      s.staticShape = true →
      ConvertIREEBindingOp symtab (some g) s = some ⟨decl.bindingIndex⟩) ∧
    (∀ i : Nat, ∀ hi : i < funcOp.body.length, ∀ decl,
      lookupSymbol symtab (funcOp.body.get ⟨i, hi⟩).binding = some decl →
      decl.bindingIndex = i →
      (funcOp.body.get ⟨i, hi⟩).staticShape = true →
      ConvertIREEBindingOp symtab (some g) (funcOp.body.get ⟨i, hi⟩) =
        some ⟨i⟩) := by
  have hg : g = ⟨funcOp.name,
      funcOp.body.map (fun s => MType.llvmPtr s.elemType s.memorySpace),
      funcOp.body⟩ := by
    unfold ConvertFunc at hconv
    by_cases hp : funcOp.isPublic = false
    · rw [if_pos hp] at hconv
      exact absurd hconv (by simp)
    · rw [if_neg hp] at hconv
      exact (Option.some.inj hconv).symm
  refine ⟨by rw [hg], ?_, ?_⟩
  · intro s hs decl hdecl hstat
    simp [ConvertIREEBindingOp, hdecl, hstat]
  · intro i hi decl hdecl hidx hstat
    simp only [List.get_eq_getElem] at hdecl hstat
    simp [ConvertIREEBindingOp, hdecl, hstat, hidx]

/-- C1 witness: in `ceFunc2`, whose twice-referenced binding is
declared with binding index 0, the reference at pre-order position 0
resolves to parameter 0. -/
theorem binding_lowering_amended_witness :
    ConvertIREEBindingOp [ceBindingDeclC] (some ceLowered2) ceSubspanC =
      some ⟨0⟩ := by
  have h := (binding_lowering_amended [ceBindingDeclC] ceFunc2 ceLowered2
    ⟨rfl, rfl⟩ (by decide)).2.2 0 (by decide) ceBindingDeclC (by decide) rfl rfl
  simpa [ceFunc2] using h

end IREELower
